import Mathlib

/-!
# NFSping: the option switch, the statistics update and the round loop of `main`

A shallow embedding of `src/nfsping.c`.

Modelling conventions.

* The header `nfsping.h`, which declares `targets_t` and `results_t`, is not
  part of the sources.  The fields are taken from their uses in `nfsping.c` and
  their types from the data model of the specification: `sent` and `received`
  are `unsigned int` counters (printed with `%u`), `min` and `max` are
  `unsigned long` microsecond values like `us`, and `avg` is a `float`.
* Machine integers are natural numbers with the wrap-around written out:
  `unsigned int` arithmetic is taken modulo 4294967296 (2^32) and
  `unsigned long` holds values below 2^64.
* Floating-point values are the rational numbers they denote, or infinity, or
  NaN.  Every `float` operation rounds its exact result to 24 significant bits
  and every `double` operation to 53, to nearest with ties to even.  The
  exponent is not bounded: the numbers the loop rounds are zero or lie between
  2^-64 and 2^100, inside the normal range of both formats.  No operand is ever
  negative, so infinity is the positive one.
* A `results` linked list is the list of the `us` values of its nodes, in link
  order; `current` is the position of the node `target->current` points to.
* The result of `clnt_call` together with the two `gettimeofday` readings is an
  `Outcome`: either `RPC_SUCCESS` with the measured `us`, or any other status.
* Output is a list of events, in the order the calls are made.
-/

namespace NFSping

/-! ## Floating-point arithmetic -/

/-- The integer nearest to `y`, the even one of the two when `y` lies half way. -/
def roundEven (y : ℚ) : ℤ :=
  if y - ⌊y⌋ < 1 / 2 then ⌊y⌋
  else if 1 / 2 < y - ⌊y⌋ then ⌊y⌋ + 1
  else if ⌊y⌋ % 2 = 0 then ⌊y⌋ else ⌊y⌋ + 1

/-- The unit in the last place of `x` for a significand of `p` bits: `2 ^ (e - p + 1)`
where `2 ^ e ≤ |x| < 2 ^ (e + 1)`. -/
def ulp (p : Nat) (x : ℚ) : ℚ := (2 : ℚ) ^ (Int.log 2 |x| - (p : ℤ) + 1)

/-- The number with a significand of `p` bits nearest to `x`, ties to even: what a
floating-point operation stores when its exact result is `x`. -/
def rnd (p : Nat) (x : ℚ) : ℚ := (roundEven (x / ulp p x) : ℚ) * ulp p x

/-- A value of a C floating-point variable. -/
inductive Fp where
  | fin (q : ℚ)
  | inf
  | nan
  deriving DecidableEq

/-- Conversion of an unsigned integer to a floating-point type of `p` bits. -/
def Fp.ofNat (p : Nat) (n : Nat) : Fp := .fin (rnd p (n : ℚ))

/-- The product `a * b` in a floating-point type of `p` bits. -/
def Fp.mul (p : Nat) : Fp → Fp → Fp
  | .fin a, .fin b => .fin (rnd p (a * b))
  | .fin a, .inf => if a = 0 then .nan else .inf
  | .inf, .fin b => if b = 0 then .nan else .inf
  | .inf, .inf => .inf
  | _, _ => .nan

/-- The sum `a + b` in a floating-point type of `p` bits. -/
def Fp.add (p : Nat) : Fp → Fp → Fp
  | .fin a, .fin b => .fin (rnd p (a + b))
  | .nan, _ => .nan
  | _, .nan => .nan
  | _, _ => .inf

/-- The quotient `a / b` in a floating-point type of `p` bits. -/
def Fp.div (p : Nat) : Fp → Fp → Fp
  | .fin a, .fin b => if b = 0 then (if a = 0 then .nan else .inf) else .fin (rnd p (a / b))
  | .fin _, .inf => .fin 0
  | .inf, .fin _ => .inf
  | _, _ => .nan

/-- Conversion of a floating-point value to `unsigned long`: the fraction is dropped.
C leaves the conversion undefined for a value of 2^64 or more and for NaN; here the
result is then reduced modulo 2^64, or zero. -/
def Fp.toULong : Fp → Nat
  | .fin q => ⌊q⌋₊ % 18446744073709551616
  | _ => 0

/-- The `double` expression `x / 1000.0` for an unsigned integer `x` (lines 69, 84 and
358): the microseconds `x` in milliseconds. -/
def msOf (x : Nat) : ℚ := rnd 53 (rnd 53 (x : ℚ) / 1000)

/-! ## Time conversions used by the option switch (lines 15-25) -/

/-- A `struct timeval`: seconds and microseconds. -/
structure Timeval where
  tv_sec : Nat
  tv_usec : Nat
  deriving DecidableEq, Repr

/-- A `struct timespec`: seconds and nanoseconds. -/
structure Timespec where
  tv_sec : Nat
  tv_nsec : Nat
  deriving DecidableEq, Repr

/-- `ms2tv`: convert milliseconds to a timeval. -/
def ms2tv (ms : Nat) : Timeval := ⟨ms / 1000, (ms % 1000) * 1000⟩

/-- `ms2ts`: convert milliseconds to a timespec. -/
def ms2ts (ms : Nat) : Timespec := ⟨ms / 1000, (ms % 1000) * 1000000⟩

/-! ## Option handling (lines 112-198) -/

/-- The local variables of `main` that the option switch assigns. -/
structure Options where
  dns : Bool
  verbose : Bool
  loop : Bool
  ip : Bool
  quiet : Bool
  multiple : Bool
  version : Nat
  count : Nat
  port : Nat
  tcp : Bool
  timeout : Timeval
  sleep_time : Timespec
  wait_time : Timespec
  deriving DecidableEq, Repr

/-- The values of the locals before the `getopt` loop (lines 97-116).  The macros
`NFS_TIMEOUT`, `NFS_SLEEP`, `NFS_WAIT` and `NFS_PORT` come from the absent header
and are parameters. -/
def initialOptions (nfsTimeout : Timeval) (nfsSleep nfsWait : Timespec) (nfsPort : Nat) :
    Options :=
  { dns := false, verbose := false, loop := false, ip := false, quiet := false,
    multiple := false, version := 3, count := 0, port := nfsPort, tcp := false,
    timeout := nfsTimeout, sleep_time := nfsSleep, wait_time := nfsWait }

/-- `usage` (lines 37-60) prints the option summary and ends the program with
`exit(3)`; a program that has exited with status `c` is `Except.error c`. -/
def usage {α : Type} : Except Nat α := .error 3

/-- `EXIT_SUCCESS`. -/
def EXIT_SUCCESS : Nat := 0

/-- `EXIT_FAILURE`. -/
def EXIT_FAILURE : Nat := 1

/-- The body of `switch(ch)` (lines 133-197) for one value `ch` returned by `getopt`;
`optarg` is the value `strtoul(optarg, NULL, 10)` yields.  The labels are the integer
values of the C case labels: `case 2` is the integer 2, the character labels are their
character codes. -/
def optionSwitch (ch : Nat) (optarg : Nat) (o : Options) : Except Nat Options :=
  if ch = 2 then .ok { o with version := 2 }
  else if ch = 'A'.toNat then .ok { o with ip := true }
  else if ch = 'C'.toNat then .ok { o with verbose := true, count := optarg }
  else if ch = 'c'.toNat then .ok { o with count := optarg }
  else if ch = 'd'.toNat then .ok { o with dns := true }
  else if ch = 'i'.toNat then .ok { o with wait_time := ms2ts optarg }
  else if ch = 'l'.toNat then .ok { o with loop := true }
  else if ch = 'm'.toNat then .ok { o with multiple := true }
  else if ch = 'M'.toNat then .ok { o with port := 0 }
  else if ch = 'p'.toNat then .ok { o with sleep_time := ms2ts optarg }
  else if ch = 'P'.toNat then .ok { o with port := optarg % 65536 }
  else if ch = 'q'.toNat then .ok { o with quiet := true }
  else if ch = 't'.toNat then .ok { o with timeout := ms2tv optarg }
  else if ch = 'T'.toNat then .ok { o with tcp := true }
  else usage

/-- The loop `while ((ch = getopt(...)) != -1)` (line 132) over the successive results
of `getopt`, each with the numeric value of its argument. -/
def parseOptions : List (Nat × Nat) → Options → Except Nat Options
  | [], o => .ok o
  | (ch, optarg) :: rest, o =>
    match optionSwitch ch optarg o with
    | .error c => .error c
    | .ok o' => parseOptions rest o'

/-! ## Targets and probe outcomes -/

/-- The part of the configuration the probe loop reads. -/
structure Config where
  count : Nat
  loop : Bool
  verbose : Bool
  quiet : Bool
  deriving DecidableEq, Repr

/-- The configuration of the probe loop held in the parsed options. -/
def Options.toConfig (o : Options) : Config :=
  { count := o.count, loop := o.loop, verbose := o.verbose, quiet := o.quiet }

/-- One-shot mode: `!count && !loop` (lines 331 and 361). -/
def Config.oneShot (cfg : Config) : Bool := cfg.count == 0 && !cfg.loop

/-- Modelled from the spec: the declaration of `targets_t` (in `nfsping.h`) is missing.
These are the statistics and history fields that `nfsping.c` uses, typed after the data
model of the specification and the conversions of the `printf` calls: `sent` and
`received` are `unsigned int` (values below 2^32), `min` and `max` are `unsigned long`
microseconds, `avg` is a `float`.  `results` lists the `us` values of the nodes of the
results list and `current` is the position of the node that `target->current` points
to. -/
structure Target where
  name : String
  sent : Nat
  received : Nat
  min : Nat
  max : Nat
  avg : Fp
  results : List Nat
  current : Nat
  deriving DecidableEq

/-- A target as lines 203-218 create it: `calloc` zeroes every field, and with
`verbose` one zeroed results node is allocated and made current. -/
def newTarget (cfg : Config) (name : String) : Target :=
  { name := name, sent := 0, received := 0, min := 0, max := 0, avg := .fin 0,
    results := if cfg.verbose then [0] else [], current := 0 }

/-- What one `clnt_call` between the two `gettimeofday` calls gives the loop body:
`RPC_SUCCESS` with `us = tv2us(call_end) - tv2us(call_start)`, the value of an
`unsigned long`, or another status. -/
inductive Outcome where
  | success (us : Nat)
  | failure
  deriving DecidableEq, Repr

/-- Things written to the standard streams. -/
inductive Event where
  /-- stdout, line 332: `"%s is alive\n"`. -/
  | alive (name : String)
  /-- stdout, line 362: `"%s is dead\n"`. -/
  | dead (name : String)
  /-- stdout, line 358: name, `sent - 1`, `us / 1000.0`, `avg / 1000.0`, `loss`. -/
  | status (name : String) (seq : Nat) (ms : ℚ) (avgMs : Fp) (loss : Fp)
  /-- stderr, line 360: `clnt_perror(target->client, "clnt_call")`. -/
  | perror
  /-- stderr, line 389: the empty line before the summary. -/
  | blank
  /-- stderr, line 68: one line of `print_summary`. -/
  | summary (name : String) (sent received : Nat) (loss : Fp) (minMs : ℚ) (avgMs : Fp)
      (maxMs : ℚ)
  /-- stderr, lines 80-89: one line of `print_verbose_summary`; `none` is the `-`. -/
  | history (name : String) (samples : List (Option ℚ))
  deriving DecidableEq

/-- Whether the event goes to standard output. -/
def Event.isStdout : Event → Bool
  | .alive _ => true
  | .dead _ => true
  | .status _ _ _ _ _ => true
  | _ => false

/-- The expression `(target->sent - target->received) / (double)target->sent * 100`
(lines 67 and 336): an `unsigned int` difference, then `double` arithmetic. -/
def lossOf (t : Target) : Fp :=
  let d : Fp := Fp.ofNat 53 ((t.sent + 4294967296 - t.received) % 4294967296)
  Fp.mul 53 (Fp.div 53 d (Fp.ofNat 53 t.sent)) (.fin 100)

/-- The `double` expression `target->avg / 1000.0` (lines 69 and 358). -/
def avgMsOf (t : Target) : Fp := Fp.div 53 t.avg (.fin 1000)

/-- Lines 345-346 and 366-367: a zeroed node is linked behind the current node and
becomes current.  The nodes that followed the current one are no longer reachable. -/
def appendNode (t : Target) : Target :=
  { t with results := t.results.take (t.current + 1) ++ [0], current := t.current + 1 }

/-- Line 355: `target->current->us = us`. -/
def storeSample (us : Nat) (t : Target) : Target :=
  { t with results := t.results.set t.current us }

/-- Lines 335-355: the statistics update on `RPC_SUCCESS` outside one-shot mode.  In
line 342 the chained assignment gives `avg` the value of `us` converted to `float`, and
`max` and `min` the value of `avg` converted back to `unsigned long`.  Line 351 is
evaluated in `float`: `received - 1` (an `unsigned int` difference), `us` and `received`
are converted, and the product, the sum and the quotient are each rounded. -/
def recordSuccess (cfg : Config) (us : Nat) (t : Target) : Target :=
  let t1 := { t with received := (t.received + 1) % 4294967296 }
  let t2 :=
    if t1.received = 1 then
      let a : Fp := Fp.ofNat 24 us
      let m : Nat := Fp.toULong a
      { t1 with avg := a, max := m, min := m }
    else
      let t3 := if cfg.verbose then appendNode t1 else t1
      let t4 := if us < t3.min then { t3 with min := us } else t3
      let t5 := if us > t4.max then { t4 with max := us } else t4
      let k : Fp := Fp.ofNat 24 ((t5.received + 4294967295) % 4294967296)
      let s : Fp := Fp.add 24 (Fp.mul 24 t5.avg k) (Fp.ofNat 24 us)
      { t5 with avg := Fp.div 24 s (Fp.ofNat 24 t5.received) }
  if cfg.verbose then storeSample us t2 else t2

/-- Lines 365-368: the history update on a failed call outside one-shot mode. -/
def recordFailure (cfg : Config) (t : Target) : Target :=
  if cfg.verbose ∧ t.sent > 1 then appendNode t else t

/-- What one execution of the loop body leaves: the target, the output, and the exit
status when the body called `exit`. -/
structure Step where
  target : Target
  out : List Event
  exit : Option Nat
  deriving DecidableEq

/-- Lines 324-369: the loop body on the target `target` points to, given the outcome
of its `clnt_call`.  The sequence number printed by line 358 is the `unsigned int`
difference `target->sent - 1`. -/
def probe (cfg : Config) (o : Outcome) (t : Target) : Step :=
  let t1 := { t with sent := (t.sent + 1) % 4294967296 }
  match o with
  | .success us =>
    if cfg.oneShot then
      { target := t1, out := [.alive t1.name], exit := some EXIT_SUCCESS }
    else
      let loss := lossOf { t1 with received := (t1.received + 1) % 4294967296 }
      let t2 := recordSuccess cfg us t1
      { target := t2,
        out := if cfg.quiet then []
               else [.status t2.name ((t2.sent + 4294967295) % 4294967296) (msOf us)
                      (avgMsOf t2) loss],
        exit := none }
  | .failure =>
    if cfg.oneShot then
      { target := t1, out := [.perror, .dead t1.name], exit := some EXIT_FAILURE }
    else
      { target := recordFailure cfg t1, out := [.perror], exit := none }

/-! ## The loops of `main` (lines 318-394) -/

/-- The targets list, the output and the exit status after part of a run. -/
structure Run where
  targets : List Target
  out : List Event
  exit : Option Nat
  deriving DecidableEq

/-- One execution of the body of `while (target)` with `target` at position `i` of the
list: only the node `target` points to is written.  `none` when `target` is `NULL`. -/
def loopBody (cfg : Config) (o : Outcome) (ts : List Target) (i : Nat) : Option Run :=
  match ts[i]? with
  | none => none
  | some t =>
    let s := probe cfg o t
    some { targets := ts.set i s.target, out := s.out, exit := s.exit }

/-- The loop `while (target)` (lines 323-374) from position `i` on; `oracle j` is the
outcome of the call to the target at position `j` in this round.  The first argument
counts the nodes from `target` to the end of the list. -/
def whileTarget (cfg : Config) (oracle : Nat → Outcome) : Nat → Nat → List Target → Run
  | 0, _, ts => { targets := ts, out := [], exit := none }
  | n + 1, i, ts =>
    match loopBody cfg (oracle i) ts i with
    | none => { targets := ts, out := [], exit := none }
    | some b =>
      match b.exit with
      | some c => { targets := b.targets, out := b.out, exit := some c }
      | none =>
        let r := whileTarget cfg oracle n (i + 1) b.targets
        { targets := r.targets, out := b.out ++ r.out, exit := r.exit }

/-- One round: `target` starts at the head of the list (lines 316 and 378). -/
def probeRound (cfg : Config) (oracle : Nat → Outcome) (ts : List Target) : Run :=
  whileTarget cfg oracle ts.length 0 ts

/-- `print_summary` (lines 62-72): one line per target. -/
def print_summary (ts : List Target) : List Event :=
  ts.map fun t =>
    Event.summary t.name t.sent t.received (lossOf t) (msOf t.min) (avgMsOf t) (msOf t.max)

/-- The inner loop of `print_verbose_summary` (lines 81-88) for one target: the nodes of
the results list in link order, a node with `us` zero being printed as `-`. -/
def historyLine (t : Target) : List (Option ℚ) :=
  t.results.map fun (us : Nat) => if us ≠ 0 then some (msOf us) else none

/-- `print_verbose_summary` (lines 75-92): one line per target. -/
def print_verbose_summary (ts : List Target) : List Event :=
  ts.map fun t => Event.history t.name (historyLine t)

/-- Lines 386-393: the blank line unless quiet, then one of the two summaries. -/
def summaryOutput (cfg : Config) (ts : List Target) : List Event :=
  (if cfg.quiet then [] else [Event.blank]) ++
  (if cfg.verbose then print_verbose_summary ts else print_summary ts)

/-- `targets->sent` in line 380, which is compared with the `unsigned long count`; the
list of `main` always has a first node. -/
def firstSent : List Target → Nat
  | [] => 0
  | t :: _ => t.sent

/-- How a run of `main` ends: the targets, all output, the exit status and the number
of rounds that were completed. -/
structure Final where
  targets : List Target
  out : List Event
  status : Nat
  rounds : Nat
  deriving DecidableEq

/-- The loop `while(1)` (lines 318-385) followed by lines 386-394.  `quitting r` is the
value of the flag read at the top of the iteration after `r` completed rounds, and
`oracle r j` the outcome of the call to target `j` in that iteration.  The first
argument bounds the number of iterations; `none` means the bound was reached. -/
def mainLoop (cfg : Config) (quitting : Nat → Bool) (oracle : Nat → Nat → Outcome) :
    Nat → Nat → List Target → List Event → Option Final
  | 0, _, _, _ => none
  | fuel + 1, r, ts, out =>
    if quitting r then
      some { targets := ts, out := out ++ summaryOutput cfg ts, status := EXIT_SUCCESS,
             rounds := r }
    else
      let b := probeRound cfg (oracle r) ts
      match b.exit with
      | some c => some { targets := b.targets, out := out ++ b.out, status := c, rounds := r }
      | none =>
        if cfg.count ≠ 0 ∧ firstSent b.targets ≥ cfg.count then
          some { targets := b.targets, out := out ++ b.out ++ summaryOutput cfg b.targets,
                 status := EXIT_SUCCESS, rounds := r + 1 }
        else
          mainLoop cfg quitting oracle fuel (r + 1) b.targets (out ++ b.out)

/-- The run of `main` from the freshly created targets, one per name, in the order of
the command line. -/
def runMain (cfg : Config) (quitting : Nat → Bool) (oracle : Nat → Nat → Outcome)
    (fuel : Nat) (names : List String) : Option Final :=
  mainLoop cfg quitting oracle fuel 0 (names.map (newTarget cfg)) []

/-- The successive probes of one target: the loop body applied for each outcome in
turn (outside one-shot mode the body never exits). -/
def probes (cfg : Config) : List Outcome → Target → Target
  | [], t => t
  | o :: os, t => probes cfg os (probe cfg o t).target

/-- The latencies of the successful outcomes, in order. -/
def latencies : List Outcome → List Nat
  | [] => []
  | .success us :: os => us :: latencies os
  | .failure :: os => latencies os

/-- What the history holds for an outcome: the latency, or zero for a failed call. -/
def sampleOf : Outcome → Nat
  | .success us => us
  | .failure => 0

/-! ## Invariants used in the proofs -/

/-- The outcomes of the calls to target `j` in the rounds `r`, ..., `r + n - 1`. -/
def outcomesOf (oracle : Nat → Nat → Outcome) (j r n : Nat) : List Outcome :=
  (List.range' r n).map fun k => oracle k j

/-- The `avg` of `t` is a finite number within the accumulated rounding error of the
mean of the latencies `ls` of the successes so far: one rounding for the first success
and six for each later one (three conversions, the product, the sum, the quotient). -/
def AvgNear (t : Target) (ls : List Nat) : Prop :=
  t.received = ls.length ∧
  (ls ≠ [] → ∃ a : ℚ, t.avg = .fin a ∧
    ((ls.sum : Nat) : ℚ) * (1 - 1 / 2 ^ 24) ^ (6 * (ls.length - 1) + 1) ≤
      a * (ls.length : ℚ) ∧
    a * (ls.length : ℚ) ≤
      ((ls.sum : Nat) : ℚ) * (1 + 1 / 2 ^ 24) ^ (6 * (ls.length - 1) + 1))

/-- The history of `t` holds one node per outcome of `os`, the last one current; the
counters have not wrapped and at least one call has been answered. -/
def HistoryOf (t : Target) (os : List Outcome) : Prop :=
  os.length < 4294967296 ∧ t.sent = os.length ∧ 1 ≤ t.received ∧ t.received ≤ t.sent ∧
  t.current + 1 = t.results.length ∧ t.results = os.map sampleOf

/-! ## Rounding -/

theorem roundEven_abs_sub_le (y : ℚ) : |(roundEven y : ℚ) - y| ≤ 1 / 2 := by
  have h1 : (⌊y⌋ : ℚ) ≤ y := Int.floor_le y
  have h2 : y < ⌊y⌋ + 1 := Int.lt_floor_add_one y
  unfold roundEven
  split_ifs with ha hb hc
  · rw [abs_le]; constructor <;> linarith
  · rw [abs_le]; push_cast; constructor <;> linarith
  · rw [abs_le]; constructor <;> linarith
  · rw [abs_le]; push_cast; constructor <;> linarith

theorem roundEven_intCast (n : ℤ) : roundEven (n : ℚ) = n := by
  simp [roundEven]

theorem roundEven_eq_of_abs_lt (y : ℚ) (n : ℤ) (h : |y - n| < 1 / 2) : roundEven y = n := by
  have hr := roundEven_abs_sub_le y
  rw [abs_lt] at h
  rw [abs_le] at hr
  have h3 : ((roundEven y : ℤ) : ℚ) - n < 1 := by linarith
  have h4 : (-1 : ℚ) < ((roundEven y : ℤ) : ℚ) - n := by linarith
  have h5 : roundEven y - n < 1 := by exact_mod_cast h3
  have h6 : -1 < roundEven y - n := by exact_mod_cast h4
  omega

theorem ulp_pos (p : Nat) (x : ℚ) : 0 < ulp p x := by
  unfold ulp; positivity

theorem rnd_zero (p : Nat) : rnd p 0 = 0 := by
  simp [rnd, roundEven]

/-- The rounding error is at most half a unit in the last place, hence at most `x / 2 ^ p`. -/
theorem rnd_abs_sub_le (p : Nat) (x : ℚ) (hx : 0 < x) : |rnd p x - x| ≤ x / 2 ^ p := by
  have hu := ulp_pos p x
  have h1 := roundEven_abs_sub_le (x / ulp p x)
  have h2 : rnd p x - x = ((roundEven (x / ulp p x) : ℚ) - x / ulp p x) * ulp p x := by
    unfold rnd; field_simp
  rw [h2, abs_mul, abs_of_pos hu]
  have h3 : ulp p x / 2 ≤ x / 2 ^ p := by
    have hl : (2 : ℚ) ^ Int.log 2 |x| ≤ |x| := by
      have := Int.zpow_log_le_self (b := 2) (r := |x|) (by norm_num) (abs_pos.mpr hx.ne')
      simpa using this
    have h4 : ulp p x / 2 = (2 : ℚ) ^ Int.log 2 |x| / 2 ^ p := by
      unfold ulp
      rw [zpow_add₀ (by norm_num), zpow_sub₀ (by norm_num)]
      simp
    rw [h4]
    rw [abs_of_pos hx] at hl ⊢
    gcongr
  calc |(roundEven (x / ulp p x) : ℚ) - x / ulp p x| * ulp p x ≤ 1 / 2 * ulp p x := by gcongr
    _ = ulp p x / 2 := by ring
    _ ≤ x / 2 ^ p := h3

theorem log_two_eq (x : ℚ) (e : ℤ) (hx : 0 < x) (h1 : (2 : ℚ) ^ e ≤ x) (h2 : x < (2 : ℚ) ^ (e + 1)) :
    Int.log 2 |x| = e := by
  rw [abs_of_pos hx]
  have a1 : e ≤ Int.log 2 x := (Int.zpow_le_iff_le_log (b := 2) (by norm_num) hx).mp (by simpa using h1)
  have a2 : Int.log 2 x < e + 1 := (Int.lt_zpow_iff_log_lt (b := 2) (by norm_num) hx).mp (by simpa using h2)
  omega

/-- Evaluation of `rnd`: with `2 ^ e ≤ x < 2 ^ (e + 1)` the result is `n` units of `2 ^ (e - p + 1)`
when `n` is the integer nearest to `x` in these units. -/
theorem rnd_eq (p : Nat) (x : ℚ) (e n : ℤ) (hx : 0 < x) (h1 : (2 : ℚ) ^ e ≤ x)
    (h2 : x < (2 : ℚ) ^ (e + 1)) (hn : roundEven (x / (2 : ℚ) ^ (e - (p : ℤ) + 1)) = n) :
    rnd p x = (n : ℚ) * (2 : ℚ) ^ (e - (p : ℤ) + 1) := by
  unfold rnd ulp
  rw [log_two_eq x e hx h1 h2, hn]

/-- Numbers with at most `p` significant bits are not changed by rounding. -/
theorem rnd_exact (p : Nat) (m : ℕ) (j : ℤ) (hm : 0 < m) (hmp : m < 2 ^ p) :
    rnd p ((m : ℚ) * (2 : ℚ) ^ j) = (m : ℚ) * (2 : ℚ) ^ j := by
  have h2pos : (0 : ℚ) < (2 : ℚ) ^ j := by positivity
  have hx : (0 : ℚ) < (m : ℚ) * (2 : ℚ) ^ j := by positivity
  set x : ℚ := (m : ℚ) * (2 : ℚ) ^ j with hxdef
  have hlt : x < (2 : ℚ) ^ ((p : ℤ) + j) := by
    rw [zpow_add₀ (by norm_num), zpow_natCast]
    have : (m : ℚ) < (2 : ℚ) ^ p := by exact_mod_cast hmp
    exact mul_lt_mul_of_pos_right this h2pos
  have hlog : Int.log 2 |x| < (p : ℤ) + j := by
    rw [abs_of_pos hx]
    exact (Int.lt_zpow_iff_log_lt (b := 2) (by norm_num) hx).mp (by simpa using hlt)
  obtain ⟨k, hk⟩ : ∃ k : ℕ, (k : ℤ) = j - (Int.log 2 |x| - (p : ℤ) + 1) :=
    ⟨(j - (Int.log 2 |x| - (p : ℤ) + 1)).toNat, Int.toNat_of_nonneg (by omega)⟩
  have hdiv : x / ulp p x = (((m * 2 ^ k : ℕ) : ℤ) : ℚ) := by
    unfold ulp
    rw [hxdef, mul_div_assoc, ← zpow_sub₀ (by norm_num), ← hk, zpow_natCast]
    push_cast; ring
  unfold rnd
  rw [hdiv, roundEven_intCast]
  rw [← hdiv]
  field_simp [(ulp_pos p x).ne']

theorem rnd_natCast (p : Nat) (n : ℕ) (h : n < 2 ^ p) : rnd p (n : ℚ) = n := by
  rcases Nat.eq_zero_or_pos n with h0 | h0
  · subst h0; simpa using rnd_zero p
  · simpa using rnd_exact p n 0 h0 h

theorem rnd_lower (p : Nat) (x : ℚ) (hx : 0 ≤ x) : x * (1 - 1 / 2 ^ p) ≤ rnd p x := by
  rcases hx.eq_or_lt with h0 | h0
  · subst h0; simp [rnd_zero]
  · have := abs_le.mp (rnd_abs_sub_le p x h0)
    have e : x * (1 - 1 / 2 ^ p) = x - x / 2 ^ p := by ring
    rw [e]; linarith [this.1]

theorem rnd_upper (p : Nat) (x : ℚ) (hx : 0 ≤ x) : rnd p x ≤ x * (1 + 1 / 2 ^ p) := by
  rcases hx.eq_or_lt with h0 | h0
  · subst h0; simp [rnd_zero]
  · have := abs_le.mp (rnd_abs_sub_le p x h0)
    have e : x * (1 + 1 / 2 ^ p) = x + x / 2 ^ p := by ring
    rw [e]; linarith [this.2]

theorem rnd_nonneg (p : Nat) (x : ℚ) (hx : 0 ≤ x) : 0 ≤ rnd p x := by
  have h := rnd_lower p x hx
  have h2 : (0 : ℚ) ≤ 1 - 1 / 2 ^ p := by
    have : (1 : ℚ) / 2 ^ p ≤ 1 := by
      rw [div_le_one (by positivity)]
      exact one_le_pow₀ (by norm_num)
    linarith
  exact le_trans (mul_nonneg hx h2) h

theorem msOf_500 : msOf 500 = (500 : ℚ) / 1000 := by
  unfold msOf
  rw [rnd_natCast 53 500 (by norm_num)]
  have h := rnd_exact 53 1 (-1) (by norm_num) (by norm_num)
  norm_num at h ⊢
  exact h

theorem oneShot_eq_false_iff (cfg : Config) :
    cfg.oneShot = false ↔ (cfg.count ≠ 0 ∨ cfg.loop = true) := by
  unfold Config.oneShot
  cases hl : cfg.loop <;> simp

theorem appendNode_stats (t : Target) :
    (appendNode t).name = t.name ∧ (appendNode t).sent = t.sent ∧
    (appendNode t).received = t.received ∧ (appendNode t).min = t.min ∧
    (appendNode t).max = t.max ∧ (appendNode t).avg = t.avg := by
  simp [appendNode]

theorem storeSample_stats (us : Nat) (t : Target) :
    (storeSample us t).name = t.name ∧ (storeSample us t).sent = t.sent ∧
    (storeSample us t).received = t.received ∧ (storeSample us t).min = t.min ∧
    (storeSample us t).max = t.max ∧ (storeSample us t).avg = t.avg := by
  simp [storeSample]

theorem recordSuccess_name (cfg : Config) (us : Nat) (t : Target) :
    (recordSuccess cfg us t).name = t.name := by
  unfold recordSuccess
  simp only [appendNode, storeSample]
  split_ifs <;> rfl

theorem recordSuccess_sent (cfg : Config) (us : Nat) (t : Target) :
    (recordSuccess cfg us t).sent = t.sent := by
  unfold recordSuccess
  simp only [appendNode, storeSample]
  split_ifs <;> rfl

theorem recordSuccess_received (cfg : Config) (us : Nat) (t : Target) :
    (recordSuccess cfg us t).received = (t.received + 1) % 4294967296 := by
  unfold recordSuccess
  simp only [appendNode, storeSample]
  split_ifs <;> rfl

theorem recordSuccess_avg (cfg : Config) (us : Nat) (t : Target) :
    (recordSuccess cfg us t).avg =
      if (t.received + 1) % 4294967296 = 1 then Fp.ofNat 24 us
      else Fp.div 24
        (Fp.add 24
          (Fp.mul 24 t.avg (Fp.ofNat 24 (((t.received + 1) % 4294967296 + 4294967295) % 4294967296)))
          (Fp.ofNat 24 us))
        (Fp.ofNat 24 ((t.received + 1) % 4294967296)) := by
  unfold recordSuccess
  simp only [appendNode, storeSample]
  split_ifs <;> rfl

theorem recordFailure_stats (cfg : Config) (t : Target) :
    (recordFailure cfg t).name = t.name ∧ (recordFailure cfg t).sent = t.sent ∧
    (recordFailure cfg t).received = t.received ∧ (recordFailure cfg t).min = t.min ∧
    (recordFailure cfg t).max = t.max ∧ (recordFailure cfg t).avg = t.avg := by
  unfold recordFailure
  split_ifs
  · exact appendNode_stats t
  · simp

theorem probe_name (cfg : Config) (o : Outcome) (t : Target) :
    (probe cfg o t).target.name = t.name := by
  cases o <;> unfold probe <;> simp only <;> split_ifs <;>
    simp [recordSuccess_name, (recordFailure_stats _ _).1]

theorem probe_sent (cfg : Config) (o : Outcome) (t : Target) :
    (probe cfg o t).target.sent = (t.sent + 1) % 4294967296 := by
  cases o <;> unfold probe <;> simp only <;> split_ifs <;>
    simp [recordSuccess_sent, (recordFailure_stats _ _).2.1]

theorem probe_exit_none (cfg : Config) (h : cfg.oneShot = false) (o : Outcome) (t : Target) :
    (probe cfg o t).exit = none := by
  cases o <;> simp [probe, h]

theorem probe_success_target (cfg : Config) (h : cfg.oneShot = false) (us : Nat) (t : Target) :
    (probe cfg (.success us) t).target =
      recordSuccess cfg us { t with sent := (t.sent + 1) % 4294967296 } := by
  simp [probe, h]

theorem probe_failure_target (cfg : Config) (h : cfg.oneShot = false) (t : Target) :
    (probe cfg .failure t).target =
      recordFailure cfg { t with sent := (t.sent + 1) % 4294967296 } := by
  simp [probe, h]

theorem probe_failure_received (cfg : Config) (t : Target) :
    (probe cfg .failure t).target.received = t.received := by
  unfold probe
  simp only
  split_ifs
  · rfl
  · exact (recordFailure_stats cfg _).2.2.1

theorem probe_failure_avg (cfg : Config) (t : Target) :
    (probe cfg .failure t).target.avg = t.avg := by
  unfold probe
  simp only
  split_ifs
  · rfl
  · exact (recordFailure_stats cfg _).2.2.2.2.2

theorem probe_success_received (cfg : Config) (h : cfg.oneShot = false) (us : Nat)
    (t : Target) :
    (probe cfg (.success us) t).target.received = (t.received + 1) % 4294967296 := by
  rw [probe_success_target cfg h, recordSuccess_received]

theorem probe_success_avg (cfg : Config) (h : cfg.oneShot = false) (us : Nat) (t : Target) :
    (probe cfg (.success us) t).target.avg =
      if (t.received + 1) % 4294967296 = 1 then Fp.ofNat 24 us
      else Fp.div 24
        (Fp.add 24
          (Fp.mul 24 t.avg (Fp.ofNat 24 (((t.received + 1) % 4294967296 + 4294967295) % 4294967296)))
          (Fp.ofNat 24 us))
        (Fp.ofNat 24 ((t.received + 1) % 4294967296)) := by
  rw [probe_success_target cfg h, recordSuccess_avg]

theorem latencies_append (os os' : List Outcome) :
    latencies (os ++ os') = latencies os ++ latencies os' := by
  induction os with
  | nil => rfl
  | cons o os ih => cases o <;> simp [latencies, ih]

theorem latencies_replicate_failure (n : Nat) :
    latencies (List.replicate n Outcome.failure) = [] := by
  induction n with
  | zero => rfl
  | succ n ih => simp [List.replicate_succ, latencies, ih]

theorem probes_append (cfg : Config) (os os' : List Outcome) :
    ∀ t : Target, probes cfg (os ++ os') t = probes cfg os' (probes cfg os t) := by
  induction os with
  | nil => intro t; rfl
  | cons o os ih => intro t; simp [probes, ih]

theorem probes_name (cfg : Config) (os : List Outcome) :
    ∀ t : Target, (probes cfg os t).name = t.name := by
  induction os with
  | nil => intro t; rfl
  | cons o os ih => intro t; simp [probes, ih, probe_name]

theorem probes_sent (cfg : Config) (os : List Outcome) :
    ∀ t : Target, (probes cfg os t).sent % 4294967296 = (t.sent + os.length) % 4294967296 := by
  induction os with
  | nil => intro t; rfl
  | cons o os ih =>
    intro t
    simp only [probes, ih, probe_sent, List.length_cons]
    omega

theorem probes_sent_newTarget (cfg : Config) (name : String) (os : List Outcome) :
    (probes cfg os (newTarget cfg name)).sent = os.length % 4294967296 := by
  cases os with
  | nil => rfl
  | cons o os =>
    have h := probes_sent cfg (o :: os) (newTarget cfg name)
    have hlt : (probes cfg (o :: os) (newTarget cfg name)).sent < 4294967296 := by
      rw [show o :: os = (o :: os).dropLast ++ [(o :: os).getLast (by simp)] from
        (List.dropLast_append_getLast _).symm, probes_append]
      simp only [probes, probe_sent]
      omega
    rw [Nat.mod_eq_of_lt hlt] at h
    rw [h]
    simp [newTarget]

theorem probes_received_failures (cfg : Config) (n : Nat) :
    ∀ t : Target, (probes cfg (List.replicate n Outcome.failure) t).received = t.received := by
  induction n with
  | zero => intro t; rfl
  | succ n ih =>
    intro t
    simp only [List.replicate_succ, probes, ih, probe_failure_received]


theorem probes_sent_failures (cfg : Config) (n : Nat) :
    ∀ t : Target, t.sent < 4294967296 →
      (probes cfg (List.replicate n Outcome.failure) t).sent = (t.sent + n) % 4294967296 := by
  induction n with
  | zero => intro t h; simpa [probes] using (Nat.mod_eq_of_lt h).symm
  | succ n ih =>
    intro t _
    simp only [List.replicate_succ, probes]
    rw [ih _ (by rw [probe_sent]; omega), probe_sent]
    omega

/-- After one answered call and `n` timeouts, without wrap-around. -/
theorem after_success_and_failures (cfg : Config) (hm : cfg.oneShot = false) (name : String)
    (us n : Nat) (hn : n + 1 < 4294967296) :
    (probes cfg (.success us :: List.replicate n .failure) (newTarget cfg name)).sent = n + 1 ∧
    (probes cfg (.success us :: List.replicate n .failure)
      (newTarget cfg name)).received = 1 := by
  simp only [probes]
  constructor
  · rw [probes_sent_failures cfg n _ (by rw [probe_sent]; omega), probe_sent]
    simp only [newTarget]
    omega
  · rw [probes_received_failures, probe_success_received cfg hm]
    rfl

/-! ## The statistics after a sequence of probes -/

theorem lowFactor_pos : (0 : ℚ) < 1 - 1 / 2 ^ 24 := by norm_num

theorem lowFactor_le_one : (1 : ℚ) - 1 / 2 ^ 24 ≤ 1 := by norm_num

theorem one_le_highFactor : (1 : ℚ) ≤ 1 + 1 / 2 ^ 24 := by norm_num

theorem lowFactor_le_inv_highFactor : (1 : ℚ) - 1 / 2 ^ 24 ≤ 1 / (1 + 1 / 2 ^ 24) := by
  norm_num

theorem inv_lowFactor_le : (1 : ℚ) / (1 - 1 / 2 ^ 24) ≤ (1 + 1 / 2 ^ 24) ^ 2 := by
  norm_num

/-- Upper bound for one update of line 351: `k`, `u1` and `d` are the converted
`received - 1`, `us` and `received`, and `p1`, `s1`, `r` the rounded product, sum and
quotient. -/
theorem chain_upper (a n us U L E S k p1 u1 s1 d r m : ℚ) (hU : 1 ≤ U) (hL : 0 < L)
    (hLU : 1 / L ≤ U ^ 2) (hE : 1 ≤ E) (ha : 0 ≤ a) (hus : 0 ≤ us)
    (hs1 : 0 ≤ s1) (hk : k ≤ n * U) (h1 : p1 ≤ a * k * U) (hu1 : u1 ≤ us * U)
    (h2 : s1 ≤ (p1 + u1) * U) (hd : m * L ≤ d) (hm : 0 < m) (h3 : r ≤ s1 / d * U)
    (hS : a * n ≤ S * E) : r * m ≤ (S + us) * (E * U ^ 6) := by
  have hU0 : (0 : ℚ) ≤ U := by linarith
  have hd0 : 0 < d := lt_of_lt_of_le (mul_pos hm hL) hd
  have b1 : a * k ≤ a * n * U := by
    have := mul_le_mul_of_nonneg_left hk ha
    linarith
  have b2 : p1 ≤ a * n * U * U := by
    have := mul_le_mul_of_nonneg_right b1 hU0
    linarith
  have b3 : p1 + u1 ≤ (a * n + us) * (U * U) := by
    have e1 : us * U ≤ us * (U * U) := by
      have : us * 1 ≤ us * U := mul_le_mul_of_nonneg_left hU hus
      have := mul_le_mul_of_nonneg_right this hU0
      linarith
    linarith
  have b4 : s1 ≤ (a * n + us) * (U * U * U) := by
    have := mul_le_mul_of_nonneg_right b3 hU0
    linarith
  have b5 : a * n + us ≤ (S + us) * E := by
    have : us * 1 ≤ us * E := mul_le_mul_of_nonneg_left hE hus
    linarith
  have hE0 : (0 : ℚ) ≤ U * U * U := by positivity
  have b6 : s1 ≤ (S + us) * E * (U * U * U) := by
    have := mul_le_mul_of_nonneg_right b5 hE0
    linarith
  have b7 : m / d ≤ 1 / L := by
    rw [div_le_div_iff₀ hd0 hL]
    linarith
  have b8 : r * m ≤ s1 * U * (m / d) := by
    have := mul_le_mul_of_nonneg_right h3 hm.le
    have e : s1 / d * U * m = s1 * U * (m / d) := by field_simp
    linarith
  have b9 : s1 * U * (m / d) ≤ s1 * U * (U ^ 2) := by
    have : m / d ≤ U ^ 2 := le_trans b7 hLU
    exact mul_le_mul_of_nonneg_left this (mul_nonneg hs1 hU0)
  have hU3 : (0 : ℚ) ≤ U * U ^ 2 := by positivity
  have b10 : s1 * U * (U ^ 2) ≤ (S + us) * E * (U * U * U) * (U * U ^ 2) := by
    have := mul_le_mul_of_nonneg_right b6 hU3
    linarith
  calc r * m ≤ s1 * U * (m / d) := b8
    _ ≤ s1 * U * (U ^ 2) := b9
    _ ≤ (S + us) * E * (U * U * U) * (U * U ^ 2) := b10
    _ = (S + us) * (E * U ^ 6) := by ring

/-- Lower bound for one update of line 351, with the names of `chain_upper`. -/
theorem chain_lower (a n us U L E S k p1 u1 s1 d r m : ℚ) (hU : 1 ≤ U) (hL : 0 < L)
    (hL1 : L ≤ 1) (hLU : L ≤ 1 / U) (hE0 : 0 ≤ E) (hE : E ≤ 1) (ha : 0 ≤ a)
    (hus : 0 ≤ us) (hS0 : 0 ≤ S) (hs1 : 0 ≤ s1) (hk : n * L ≤ k) (h1 : a * k * L ≤ p1)
    (hu1 : us * L ≤ u1) (h2 : (p1 + u1) * L ≤ s1) (hd : d ≤ m * U) (hd0 : 0 < d)
    (hm : 0 < m) (h3 : s1 / d * L ≤ r) (hS : S * E ≤ a * n) :
    (S + us) * (E * L ^ 6) ≤ r * m := by
  have hU0 : (0 : ℚ) < U := by linarith
  have b1 : a * n * L ≤ a * k := by
    have := mul_le_mul_of_nonneg_left hk ha
    linarith
  have b2 : a * n * L * L ≤ p1 := by
    have := mul_le_mul_of_nonneg_right b1 hL.le
    linarith
  have b3 : (a * n + us) * (L * L) ≤ p1 + u1 := by
    have e1 : us * (L * L) ≤ us * L := by
      have : us * L ≤ us * 1 := mul_le_mul_of_nonneg_left hL1 hus
      have := mul_le_mul_of_nonneg_right this hL.le
      linarith
    linarith
  have b4 : (a * n + us) * (L * L * L) ≤ s1 := by
    have := mul_le_mul_of_nonneg_right b3 hL.le
    linarith
  have b5 : (S + us) * E ≤ a * n + us := by
    have : us * E ≤ us * 1 := mul_le_mul_of_nonneg_left hE hus
    linarith
  have hL3 : (0 : ℚ) ≤ L * L * L := by positivity
  have b6 : (S + us) * E * (L * L * L) ≤ s1 := by
    have := mul_le_mul_of_nonneg_right b5 hL3
    linarith
  have b7 : L ≤ m / d := by
    have : 1 / U ≤ m / d := by
      rw [div_le_div_iff₀ hU0 hd0]
      linarith
    exact le_trans hLU this
  have b8 : s1 * L * (m / d) ≤ r * m := by
    have := mul_le_mul_of_nonneg_right h3 hm.le
    have e : s1 / d * L * m = s1 * L * (m / d) := by field_simp
    linarith
  have b9 : s1 * L * L ≤ s1 * L * (m / d) :=
    mul_le_mul_of_nonneg_left b7 (mul_nonneg hs1 hL.le)
  have hL2 : (0 : ℚ) ≤ L * L := by positivity
  have b10 : (S + us) * E * (L * L * L) * (L * L) ≤ s1 * L * L := by
    have := mul_le_mul_of_nonneg_right b6 hL2
    linarith
  have hSE : 0 ≤ (S + us) * E * (L * L * L) * (L * L) :=
    mul_nonneg (mul_nonneg (mul_nonneg (add_nonneg hS0 hus) hE0) hL3) hL2
  have b11 : (S + us) * (E * L ^ 6) ≤ (S + us) * E * (L * L * L) * (L * L) := by
    have e : (S + us) * (E * L ^ 6) = (S + us) * E * (L * L * L) * (L * L) * L := by ring
    rw [e]
    have := mul_le_mul_of_nonneg_left hL1 hSE
    linarith
  calc (S + us) * (E * L ^ 6) ≤ (S + us) * E * (L * L * L) * (L * L) := b11
    _ ≤ s1 * L * L := b10
    _ ≤ s1 * L * (m / d) := b9
    _ ≤ r * m := b8

theorem avgNear_newTarget (cfg : Config) (name : String) : AvgNear (newTarget cfg name) [] := by
  simp [AvgNear, newTarget]

theorem avgNear_recordSuccess (cfg : Config) (us : Nat) (t : Target) (ls : List Nat)
    (h : AvgNear t ls) (hlen : ls.length + 1 < 4294967296) :
    AvgNear (recordSuccess cfg us t) (ls ++ [us]) := by
  obtain ⟨hr, hs⟩ := h
  have hmod : (t.received + 1) % 4294967296 = ls.length + 1 := by rw [hr]; omega
  have hus0 : (0 : ℚ) ≤ (us : ℚ) := Nat.cast_nonneg _
  refine ⟨by simp [recordSuccess_received, hmod], fun _ => ?_⟩
  rw [recordSuccess_avg, hmod]
  by_cases hl : ls = []
  · subst hl
    refine ⟨rnd 24 (us : ℚ), ?_, ?_, ?_⟩
    · simp [Fp.ofNat]
    · simpa using rnd_lower 24 (us : ℚ) hus0
    · simpa using rnd_upper 24 (us : ℚ) hus0
  · obtain ⟨a, ha, hlo, hup⟩ := hs hl
    have hn1 : 1 ≤ ls.length := by
      rcases Nat.eq_zero_or_pos ls.length with h0 | h0
      · exact absurd (List.length_eq_zero.mp h0) hl
      · exact h0
    have hpos : ¬ (ls.length + 1 = 1) := by omega
    have hk : (ls.length + 1 + 4294967295) % 4294967296 = ls.length := by omega
    have hS0 : (0 : ℚ) ≤ ((ls.sum : ℕ) : ℚ) := Nat.cast_nonneg _
    have hn0 : (0 : ℚ) ≤ (ls.length : ℚ) := Nat.cast_nonneg _
    have hnpos : (0 : ℚ) < (ls.length : ℚ) := Nat.cast_pos.mpr hn1
    have hm : (0 : ℚ) < ((ls.length + 1 : ℕ) : ℚ) := Nat.cast_pos.mpr (Nat.succ_pos _)
    have hL0 := lowFactor_pos
    have hEL0 : (0 : ℚ) ≤ (1 - 1 / 2 ^ 24) ^ (6 * (ls.length - 1) + 1) := pow_nonneg hL0.le _
    have hEL1 : ((1 : ℚ) - 1 / 2 ^ 24) ^ (6 * (ls.length - 1) + 1) ≤ 1 :=
      pow_le_one₀ hL0.le lowFactor_le_one
    have hEU1 : (1 : ℚ) ≤ (1 + 1 / 2 ^ 24) ^ (6 * (ls.length - 1) + 1) :=
      one_le_pow₀ one_le_highFactor
    have han : 0 ≤ a * (ls.length : ℚ) := le_trans (mul_nonneg hS0 hEL0) hlo
    have ha0 : 0 ≤ a := by
      by_contra hneg
      push_neg at hneg
      have := mul_neg_of_neg_of_pos hneg hnpos
      linarith
    have hk0 : 0 ≤ rnd 24 (ls.length : ℚ) := rnd_nonneg 24 _ hn0
    have hak : 0 ≤ a * rnd 24 (ls.length : ℚ) := mul_nonneg ha0 hk0
    have hp1 : 0 ≤ rnd 24 (a * rnd 24 (ls.length : ℚ)) := rnd_nonneg 24 _ hak
    have hu1 : 0 ≤ rnd 24 (us : ℚ) := rnd_nonneg 24 _ hus0
    have hsum0 : 0 ≤ rnd 24 (a * rnd 24 (ls.length : ℚ)) + rnd 24 (us : ℚ) :=
      add_nonneg hp1 hu1
    have hs1 : 0 ≤ rnd 24 (rnd 24 (a * rnd 24 (ls.length : ℚ)) + rnd 24 (us : ℚ)) :=
      rnd_nonneg 24 _ hsum0
    have hdlow := rnd_lower 24 (((ls.length + 1 : ℕ) : ℚ)) hm.le
    have hdup := rnd_upper 24 (((ls.length + 1 : ℕ) : ℚ)) hm.le
    have hd0 : 0 < rnd 24 (((ls.length + 1 : ℕ) : ℚ)) :=
      lt_of_lt_of_le (mul_pos hm hL0) hdlow
    have hq : 0 ≤ rnd 24 (rnd 24 (a * rnd 24 (ls.length : ℚ)) + rnd 24 (us : ℚ)) /
        rnd 24 (((ls.length + 1 : ℕ) : ℚ)) := div_nonneg hs1 hd0.le
    simp only [hpos, if_false, hk, ha, Fp.ofNat, Fp.mul, Fp.add, Fp.div]
    rw [if_neg hd0.ne']
    have hexp : 6 * ((ls ++ [us]).length - 1) + 1 = (6 * (ls.length - 1) + 1) + 6 := by
      simp only [List.length_append, List.length_singleton]
      omega
    have hsum : (((ls ++ [us]).sum : ℕ) : ℚ) = ((ls.sum : ℕ) : ℚ) + (us : ℚ) := by simp
    have hlen' : (((ls ++ [us]).length : ℕ) : ℚ) = ((ls.length + 1 : ℕ) : ℚ) := by simp
    refine ⟨_, rfl, ?_, ?_⟩
    · rw [hexp, hsum, hlen', pow_add]
      exact chain_lower a (ls.length : ℚ) us _ _ _ _ _ _ _ _ _ _ _ one_le_highFactor hL0
        lowFactor_le_one lowFactor_le_inv_highFactor hEL0 hEL1 ha0 hus0 hS0 hs1
        (rnd_lower 24 _ hn0) (rnd_lower 24 _ hak) (rnd_lower 24 _ hus0)
        (rnd_lower 24 _ hsum0) hdup hd0 hm (rnd_lower 24 _ hq) hlo
    · rw [hexp, hsum, hlen', pow_add]
      exact chain_upper a (ls.length : ℚ) us _ _ _ _ _ _ _ _ _ _ _ one_le_highFactor hL0
        inv_lowFactor_le hEU1 ha0 hus0 hs1
        (rnd_upper 24 _ hn0) (rnd_upper 24 _ hak) (rnd_upper 24 _ hus0)
        (rnd_upper 24 _ hsum0) hdlow hm (rnd_upper 24 _ hq) hup

theorem avgNear_probes (cfg : Config) (hmode : cfg.oneShot = false) (os : List Outcome) :
    ∀ (t : Target) (ls : List Nat), AvgNear t ls →
      (ls ++ latencies os).length < 4294967296 →
      AvgNear (probes cfg os t) (ls ++ latencies os) := by
  induction os with
  | nil => intro t ls h _; simpa [probes, latencies] using h
  | cons o os ih =>
    intro t ls h hlen
    cases o with
    | failure =>
      have h1 : AvgNear (probe cfg .failure t).target ls := by
        rw [probe_failure_target cfg hmode]
        obtain ⟨_, _, hr, _, _, havg⟩ :=
          recordFailure_stats cfg { t with sent := (t.sent + 1) % 4294967296 }
        simpa [AvgNear, hr, havg] using h
      simpa [probes, latencies] using ih _ _ h1 (by simpa [latencies] using hlen)
    | success us =>
      have e : ls ++ latencies (Outcome.success us :: os) = (ls ++ [us]) ++ latencies os := by
        simp [latencies]
      rw [e] at hlen ⊢
      have h1 : AvgNear (probe cfg (.success us) t).target (ls ++ [us]) := by
        rw [probe_success_target cfg hmode]
        refine avgNear_recordSuccess cfg us _ ls h ?_
        simp only [List.length_append, List.length_singleton] at hlen
        omega
      exact ih _ _ h1 hlen

/-! ## Claims about the statistics -/

/-- C1 fails in the `float` arithmetic of line 351: for three calls answered in 300, 300
and 400 microseconds, with two timeouts between them, `avg` ends as 10922667/32768
(333.33334...), the `float` nearest to the batch mean 1000/3, not the mean itself. -/
theorem avg_not_exact_mean :
    (probes ⟨5, false, false, false⟩
        [.success 300, .failure, .success 300, .failure, .success 400]
        (newTarget ⟨5, false, false, false⟩ "host")).avg = Fp.fin ((10922667 : ℚ) / 32768) ∧
    ((10922667 : ℚ) / 32768) ≠ (300 + 300 + 400) / 3 := by
  have r1 : rnd 24 1 = 1 := by simpa using rnd_natCast 24 1 (by norm_num)
  have r2 : rnd 24 2 = 2 := by simpa using rnd_natCast 24 2 (by norm_num)
  have r3 : rnd 24 3 = 3 := by simpa using rnd_natCast 24 3 (by norm_num)
  have r300 : rnd 24 300 = 300 := by simpa using rnd_natCast 24 300 (by norm_num)
  have r400 : rnd 24 400 = 400 := by simpa using rnd_natCast 24 400 (by norm_num)
  have r600 : rnd 24 600 = 600 := by simpa using rnd_natCast 24 600 (by norm_num)
  have r1000 : rnd 24 1000 = 1000 := by simpa using rnd_natCast 24 1000 (by norm_num)
  have rq : rnd 24 (1000 / 3) = 10922667 / 32768 := by
    rw [rnd_eq 24 (1000 / 3) 8 10922667 (by norm_num) (by norm_num) (by norm_num)
      (roundEven_eq_of_abs_lt _ _ (by norm_num [abs_lt]))]
    norm_num
  have hm : Config.oneShot ⟨5, false, false, false⟩ = false := rfl
  constructor
  · simp only [probes, probe_success_avg _ hm, probe_success_received _ hm, probe_failure_avg,
      probe_failure_received, newTarget, Fp.ofNat, Fp.mul, Fp.add, Fp.div]
    norm_num [r1, r2, r3, r300, r400, r600, r1000, rq]
  · norm_num

/-- C1 as amended: in count or loop mode, after `n ≥ 1` successful probes of a target,
`n` below 2^32, with any number of failed probes between them, `avg` is a finite `float`
within the accumulated rounding error of the batch mean `(l_1 + ... + l_n) / n`: at
least the mean times `(1 - 2^-24) ^ (6 (n - 1) + 1)` and at most the mean times
`(1 + 2^-24) ^ (6 (n - 1) + 1)`, the exponent being the number of `float` roundings
made. -/
theorem avg_near_batch_mean (cfg : Config) (name : String) (os : List Outcome)
    (hmode : cfg.count ≠ 0 ∨ cfg.loop = true) (hn : latencies os ≠ [])
    (hlen : (latencies os).length < 4294967296) :
    ∃ a : ℚ, (probes cfg os (newTarget cfg name)).avg = Fp.fin a ∧
      (((latencies os).sum : Nat) : ℚ) / (((latencies os).length : Nat) : ℚ) *
          (1 - 1 / 2 ^ 24) ^ (6 * ((latencies os).length - 1) + 1) ≤ a ∧
      a ≤ (((latencies os).sum : Nat) : ℚ) / (((latencies os).length : Nat) : ℚ) *
          (1 + 1 / 2 ^ 24) ^ (6 * ((latencies os).length - 1) + 1) := by
  have h := avgNear_probes cfg ((oneShot_eq_false_iff cfg).mpr hmode) os _ _
    (avgNear_newTarget cfg name) (by simpa using hlen)
  simp only [List.nil_append] at h
  obtain ⟨a, ha, hlo, hup⟩ := h.2 hn
  have hpos : (0 : ℚ) < (((latencies os).length : Nat) : ℚ) := by
    have : 0 < (latencies os).length := List.length_pos.mpr hn
    exact_mod_cast this
  refine ⟨a, ha, ?_, ?_⟩
  · rw [div_mul_eq_mul_div, div_le_iff₀ hpos]
    exact hlo
  · rw [div_mul_eq_mul_div, le_div_iff₀ hpos]
    exact hup

/-- Witness for C1 as amended: latencies 300, 300 and 400 with two failed probes in
between. -/
theorem avg_near_batch_mean_witness :
    ∃ a : ℚ, (probes ⟨5, false, false, false⟩
        [.success 300, .failure, .success 300, .failure, .success 400]
        (newTarget ⟨5, false, false, false⟩ "host")).avg = Fp.fin a ∧
      (1000 : ℚ) / 3 * (1 - 1 / 2 ^ 24) ^ 13 ≤ a ∧
      a ≤ (1000 : ℚ) / 3 * (1 + 1 / 2 ^ 24) ^ 13 := by
  have h := avg_near_batch_mean ⟨5, false, false, false⟩ "host"
    [.success 300, .failure, .success 300, .failure, .success 400]
    (Or.inl (by decide)) (by simp [latencies]) (by simp [latencies])
  have e : (((latencies [Outcome.success 300, .failure, .success 300, .failure,
      .success 400]).sum : Nat) : ℚ) /
      (((latencies [Outcome.success 300, .failure, .success 300, .failure,
      .success 400]).length : Nat) : ℚ) = 1000 / 3 := by
    norm_num [latencies]
  have e2 : 6 * ((latencies [Outcome.success 300, .failure, .success 300, .failure,
      .success 400]).length - 1) + 1 = 13 := by
    simp [latencies]
  rw [e, e2] at h
  exact h

/-- C3 fails when `sent` wraps: after one answered call and 4294967294 timeouts a target
has `sent = 4294967295` and `received = 1`; the next timeout makes `sent` zero, so
`sent` has decreased and is below `received`. -/
theorem counters_wrap :
    (probes ⟨0, true, false, true⟩ (.success 5 :: List.replicate 4294967294 .failure)
        (newTarget ⟨0, true, false, true⟩ "host")).sent = 4294967295 ∧
    (probes ⟨0, true, false, true⟩ (.success 5 :: List.replicate 4294967294 .failure)
        (newTarget ⟨0, true, false, true⟩ "host")).received = 1 ∧
    (probe ⟨0, true, false, true⟩ .failure
        (probes ⟨0, true, false, true⟩ (.success 5 :: List.replicate 4294967294 .failure)
          (newTarget ⟨0, true, false, true⟩ "host"))).target.sent = 0 ∧
    (probe ⟨0, true, false, true⟩ .failure
        (probes ⟨0, true, false, true⟩ (.success 5 :: List.replicate 4294967294 .failure)
          (newTarget ⟨0, true, false, true⟩ "host"))).target.received = 1 := by
  obtain ⟨hs, hr⟩ := after_success_and_failures ⟨0, true, false, true⟩ rfl "host" 5
    4294967294 (by norm_num)
  refine ⟨hs, hr, ?_, ?_⟩
  · rw [probe_sent, hs]
  · rw [probe_failure_received, hr]

/-- C3 as amended: `received ≤ sent` holds for a freshly created target and is preserved
by every execution of the loop body, successful or not, in every mode, as long as `sent`
is below 4294967295, the largest `unsigned int`; for such a target the body decreases
neither counter. -/
theorem received_le_sent (cfg : Config) (name : String) (o : Outcome) (t : Target)
    (h : t.received ≤ t.sent) (hw : t.sent + 1 < 4294967296) :
    (newTarget cfg name).received ≤ (newTarget cfg name).sent ∧
    (probe cfg o t).target.received ≤ (probe cfg o t).target.sent ∧
    t.sent ≤ (probe cfg o t).target.sent ∧
    t.received ≤ (probe cfg o t).target.received := by
  refine ⟨by simp [newTarget], ?_⟩
  cases o with
  | success us =>
    by_cases hm : cfg.oneShot = true
    · simp [probe, hm]; omega
    · simp only [Bool.not_eq_true] at hm
      rw [probe_success_target cfg hm, recordSuccess_sent, recordSuccess_received]
      simp only
      omega
  | failure =>
    by_cases hm : cfg.oneShot = true
    · simp [probe, hm]; omega
    · simp only [Bool.not_eq_true] at hm
      rw [probe_failure_target cfg hm]
      obtain ⟨_, hs, hr, _⟩ :=
        recordFailure_stats cfg { t with sent := (t.sent + 1) % 4294967296 }
      rw [hs, hr]
      simp only
      omega

/-- Witness for C3 as amended: a successful probe of a target with three of five calls
answered. -/
theorem received_le_sent_witness :
    (probe ⟨5, false, false, false⟩ (.success 250)
        { name := "host", sent := 5, received := 3, min := 100, max := 900, avg := .fin 400,
          results := [], current := 0 }).target.received ≤
    (probe ⟨5, false, false, false⟩ (.success 250)
        { name := "host", sent := 5, received := 3, min := 100, max := 900, avg := .fin 400,
          results := [], current := 0 }).target.sent :=
  (received_le_sent ⟨5, false, false, false⟩ "host" (.success 250)
    { name := "host", sent := 5, received := 3, min := 100, max := 900, avg := .fin 400,
      results := [], current := 0 } (by decide) (by decide)).2.1

/-! ## A failed probe -/

theorem loopBody_single (cfg : Config) (o : Outcome) (t : Target) :
    loopBody cfg o [t] 0 =
      some { targets := [(probe cfg o t).target], out := (probe cfg o t).out,
             exit := (probe cfg o t).exit } := by
  simp [loopBody]

theorem sent_after_failures (cfg : Config) (name : String) (n : Nat) (hn : n < 4294967296) :
    (probes cfg (List.replicate n Outcome.failure) (newTarget cfg name)).sent = n := by
  rw [probes_sent_failures cfg n _ (by simp [newTarget])]
  simp only [newTarget]
  omega

/-- C4 fails when `sent` wraps: a target that has timed out 4294967295 times has
`sent = 4294967295`, and the loop body run for one more timeout leaves it with
`sent = 0`, not 4294967296. -/
theorem sent_wraps_on_failure :
    (probes ⟨0, true, false, true⟩ (List.replicate 4294967295 .failure)
        (newTarget ⟨0, true, false, true⟩ "host")).sent = 4294967295 ∧
    (loopBody ⟨0, true, false, true⟩ .failure
        [probes ⟨0, true, false, true⟩ (List.replicate 4294967295 .failure)
          (newTarget ⟨0, true, false, true⟩ "host")] 0).map
      (fun r => r.targets.map Target.sent) = some [0] := by
  have hs := sent_after_failures ⟨0, true, false, true⟩ "host" 4294967295 (by norm_num)
  refine ⟨hs, ?_⟩
  rw [loopBody_single]
  simp only [Option.map_some', List.map_cons, List.map_nil, probe_sent, hs]

/-- C4 as amended: in count or loop mode, the loop body run for a call that did not return
`RPC_SUCCESS` does not exit, adds one to the `sent` of the target it was run for in
`unsigned int` arithmetic (so 4294967295 becomes 0), leaves that target's `received`,
`min`, `max` and `avg` as they were, and leaves every other target of the list as it
was. -/
theorem failed_probe_frame (cfg : Config) (hmode : cfg.count ≠ 0 ∨ cfg.loop = true)
    (ts : List Target) (i : Nat) (t : Target) (ht : ts[i]? = some t) :
    ∃ r t', loopBody cfg .failure ts i = some r ∧ r.exit = none ∧
      r.targets.length = ts.length ∧ r.targets[i]? = some t' ∧
      t'.sent = (t.sent + 1) % 4294967296 ∧ t'.received = t.received ∧ t'.min = t.min ∧
      t'.max = t.max ∧ t'.avg = t.avg ∧
      ∀ j : Nat, j ≠ i → r.targets[j]? = ts[j]? := by
  have hm := (oneShot_eq_false_iff cfg).mpr hmode
  have hi : i < ts.length := by
    rcases Nat.lt_or_ge i ts.length with h | h
    · exact h
    · rw [List.getElem?_eq_none h] at ht; cases ht
  obtain ⟨-, hs, hr, hmin, hmax, havg⟩ :=
    recordFailure_stats cfg { t with sent := (t.sent + 1) % 4294967296 }
  refine ⟨{ targets := ts.set i (probe cfg .failure t).target,
            out := (probe cfg .failure t).out, exit := (probe cfg .failure t).exit },
          (probe cfg .failure t).target, ?_, ?_, ?_, ?_, ?_, ?_, ?_, ?_, ?_, ?_⟩
  · simp [loopBody, ht]
  · exact probe_exit_none cfg hm _ _
  · simp
  · simp [hi]
  · rw [probe_failure_target cfg hm, hs]
  · rw [probe_failure_target cfg hm, hr]
  · rw [probe_failure_target cfg hm, hmin]
  · rw [probe_failure_target cfg hm, hmax]
  · rw [probe_failure_target cfg hm, havg]
  · intro j hj
    simp [List.getElem?_set_ne (Ne.symm hj)]

/-- Witness for C4 as amended: a timeout on the second of three targets. -/
theorem failed_probe_frame_witness :
    ∃ r t', loopBody ⟨5, false, true, false⟩ .failure
        [newTarget ⟨5, false, true, false⟩ "a",
         { name := "b", sent := 2, received := 2, min := 100, max := 300, avg := .fin 200,
           results := [100, 300], current := 1 },
         newTarget ⟨5, false, true, false⟩ "c"] 1 = some r ∧ r.exit = none ∧
      r.targets.length = 3 ∧ r.targets[1]? = some t' ∧
      t'.sent = (2 + 1) % 4294967296 ∧ t'.received = 2 ∧ t'.min = 100 ∧ t'.max = 300 ∧
      t'.avg = .fin 200 ∧
      ∀ j : Nat, j ≠ 1 → r.targets[j]? =
        [newTarget ⟨5, false, true, false⟩ "a",
         { name := "b", sent := 2, received := 2, min := 100, max := 300, avg := .fin 200,
           results := [100, 300], current := 1 },
         newTarget ⟨5, false, true, false⟩ "c"][j]? :=
  failed_probe_frame ⟨5, false, true, false⟩ (Or.inl (by decide)) _ 1
    { name := "b", sent := 2, received := 2, min := 100, max := 300, avg := .fin 200,
      results := [100, 300], current := 1 } rfl

/-! ## The history list -/

theorem historyOf_probe (cfg : Config) (hv : cfg.verbose = true) (hmode : cfg.oneShot = false)
    (o : Outcome) (t : Target) (os : List Outcome) (h : HistoryOf t os)
    (hlen : os.length + 1 < 4294967296) :
    HistoryOf (probe cfg o t).target (os ++ [o]) := by
  obtain ⟨_, hsent, hr, hrs, hc, hres⟩ := h
  have hs1 : (t.sent + 1) % 4294967296 = os.length + 1 := by omega
  have hlen' : (os ++ [o]).length < 4294967296 := by simpa using hlen
  cases o with
  | success us =>
    rw [probe_success_target cfg hmode]
    have hr1 : (t.received + 1) % 4294967296 = t.received + 1 := by omega
    have hne : ¬ ((t.received + 1) % 4294967296 = 1) := by omega
    refine ⟨hlen', ?_, ?_, ?_, ?_, ?_⟩
    · rw [recordSuccess_sent]; simpa using hs1
    · rw [recordSuccess_received]; simp only; omega
    · rw [recordSuccess_received, recordSuccess_sent]; simp only; omega
    · simp [recordSuccess, hv, hne, appendNode, storeSample, hc]
      split_ifs <;> simp
    · have key : (recordSuccess cfg us { t with sent := (t.sent + 1) % 4294967296 }).results =
          (t.results ++ [0]).set (t.current + 1) us := by
        simp [recordSuccess, hv, hne, appendNode, storeSample, hc]
        split_ifs <;> simp
      rw [key, hc, List.set_append_right _ _ (le_refl _)]
      simp [hres, sampleOf]
  | failure =>
    rw [probe_failure_target cfg hmode]
    have hgt : (t.sent + 1) % 4294967296 > 1 := by omega
    refine ⟨hlen', ?_, ?_, ?_, ?_, ?_⟩
    · rw [(recordFailure_stats cfg _).2.1]; simpa using hs1
    · rw [(recordFailure_stats cfg _).2.2.1]; exact hr
    · rw [(recordFailure_stats cfg _).2.2.1, (recordFailure_stats cfg _).2.1]
      simp only; omega
    · simp [recordFailure, hv, hgt, appendNode, hc]
    · simp [recordFailure, hv, hgt, appendNode, hc, hres, sampleOf]

theorem historyOf_probes (cfg : Config) (hv : cfg.verbose = true) (hmode : cfg.oneShot = false)
    (os' : List Outcome) :
    ∀ (t : Target) (os : List Outcome), HistoryOf t os →
      os.length + os'.length < 4294967296 →
      HistoryOf (probes cfg os' t) (os ++ os') := by
  induction os' with
  | nil => intro t os h _; simpa [probes] using h
  | cons o os' ih =>
    intro t os h hlen
    simp only [List.length_cons] at hlen
    have h1 := ih _ _ (historyOf_probe cfg hv hmode o t os h (by omega))
      (by simp only [List.length_append, List.length_singleton]; omega)
    simpa [probes] using h1

theorem historyOf_first_success (cfg : Config) (hv : cfg.verbose = true)
    (hmode : cfg.oneShot = false) (name : String) (us : Nat) :
    HistoryOf (probe cfg (.success us) (newTarget cfg name)).target [.success us] := by
  rw [probe_success_target cfg hmode]
  simp [HistoryOf, recordSuccess, newTarget, hv, storeSample, sampleOf]

/-- C5, the behaviour of the code for `-q -C 2` and one target whose first call fails
and whose second call succeeds in 500 microseconds: the second probe writes its latency
into the node left by the first, so when the run ends after two rounds the target has
`sent = 2` but a history of a single node, and the verbose summary prints one sample. -/
theorem history_shorter_than_sent :
    (runMain ⟨2, false, true, true⟩ (fun _ => false)
        (fun r _ => if r = 0 then .failure else .success 500) 2 ["host"]).map
      (fun f => (f.rounds, f.targets.map Target.sent, f.targets.map Target.results, f.out)) =
    some (2, [2], [[500]], [Event.perror, Event.history "host" [some ((500 : ℚ) / 1000)]]) := by
  simp [runMain, mainLoop, probeRound, whileTarget, loopBody, probe, Config.oneShot,
    recordSuccess, recordFailure, newTarget, storeSample, firstSent, summaryOutput,
    print_verbose_summary, historyLine, EXIT_SUCCESS, msOf_500]

theorem failure_at_wrap_results (cfg : Config) (hm : cfg.oneShot = false) (t : Target)
    (h0 : (t.sent + 1) % 4294967296 = 0) :
    (probe cfg .failure t).target.results = t.results := by
  rw [probe_failure_target cfg hm]
  simp [recordFailure, h0]

/-- After an answered first call and `n + 1` timeouts that bring `sent` back to zero,
the history has `n + 1` nodes: the last timeout links none. -/
theorem history_at_wrap (cfg : Config) (hv : cfg.verbose = true) (hm : cfg.oneShot = false)
    (name : String) (us n : Nat) (hn : n + 2 = 4294967296) :
    (probes cfg (.success us :: List.replicate (n + 1) .failure)
      (newTarget cfg name)).results.length = n + 1 := by
  have h := historyOf_probes cfg hv hm (List.replicate n .failure) _ _
    (historyOf_first_success cfg hv hm name us)
    (by simp only [List.length_singleton, List.length_replicate]; omega)
  obtain ⟨_, hsent, _, _, _, hres⟩ := h
  have hs0 : ((probes cfg (List.replicate n .failure)
      (probe cfg (.success us) (newTarget cfg name)).target).sent + 1) % 4294967296 = 0 := by
    rw [hsent]
    simp only [List.length_append, List.length_singleton, List.length_replicate]
    omega
  rw [List.replicate_succ', ← List.cons_append, probes_append]
  simp only [probes]
  rw [failure_at_wrap_results cfg hm _ hs0, hres]
  simp only [List.length_map, List.length_append, List.length_singleton,
    List.length_replicate]
  omega

/-- C6 fails when `sent` wraps: with `-C` in loop mode, after an answered first call
and 4294967295 timeouts, 4294967296 probes in all, the history has only 4294967295
entries, because the last timeout brings `sent` to zero and line 365 links no node. -/
theorem history_loses_entry_at_wrap :
    (probes ⟨0, true, true, true⟩ (.success 5 :: List.replicate 4294967295 .failure)
        (newTarget ⟨0, true, true, true⟩ "host")).results.length = 4294967295 :=
  history_at_wrap ⟨0, true, true, true⟩ rfl rfl "host" 5 4294967294 (by norm_num)

/-- C6 as amended: with history tracking in count or loop mode, after a first probe that
succeeds and further probes, fewer than 4294967296 in all, the history list has one
entry per probe, in call order: the latency of a probe that succeeded, zero for one
that failed; the verbose summary prints the entries in that order, a zero entry as
`-`. -/
theorem history_after_first_success (cfg : Config) (name : String) (us : Nat)
    (os : List Outcome) (hv : cfg.verbose = true) (hmode : cfg.count ≠ 0 ∨ cfg.loop = true)
    (hlen : os.length + 1 < 4294967296) :
    (probes cfg (.success us :: os) (newTarget cfg name)).results =
      (Outcome.success us :: os).map sampleOf ∧
    (probes cfg (.success us :: os) (newTarget cfg name)).results.length = os.length + 1 ∧
    historyLine (probes cfg (.success us :: os) (newTarget cfg name)) =
      (Outcome.success us :: os).map fun (o : Outcome) =>
        if sampleOf o ≠ 0 then some (msOf (sampleOf o)) else none := by
  have hm := (oneShot_eq_false_iff cfg).mpr hmode
  have h := historyOf_probes cfg hv hm os _ _ (historyOf_first_success cfg hv hm name us)
    (by simp only [List.length_singleton]; omega)
  have hres : (probes cfg (.success us :: os) (newTarget cfg name)).results =
      (Outcome.success us :: os).map sampleOf := by
    simpa [probes] using h.2.2.2.2.2
  exact ⟨hres, by rw [hres]; simp, by rw [historyLine, hres, List.map_map]; rfl⟩

/-- Witness for C6 as amended: success, success, timeout, success, timeout gives five
entries, the third and the fifth zero. -/
theorem history_after_first_success_witness :
    (probes ⟨5, false, true, false⟩
        [.success 310, .success 290, .failure, .success 305, .failure]
        (newTarget ⟨5, false, true, false⟩ "host")).results = [310, 290, 0, 305, 0] :=
  (history_after_first_success ⟨5, false, true, false⟩ "host" 310
    [.success 290, .failure, .success 305, .failure] rfl (Or.inl (by decide))
    (by decide)).1

/-! ## Rounds -/

theorem loopBody_of_get (cfg : Config) (o : Outcome) (ts : List Target) (i : Nat) (t : Target)
    (ht : ts[i]? = some t) :
    loopBody cfg o ts i = some { targets := ts.set i (probe cfg o t).target,
                                 out := (probe cfg o t).out, exit := (probe cfg o t).exit } := by
  simp [loopBody, ht]

theorem whileTarget_targets (cfg : Config) (hmode : cfg.oneShot = false)
    (oracle : Nat → Outcome) :
    ∀ (n i : Nat) (ts : List Target), i + n = ts.length →
      (whileTarget cfg oracle n i ts).exit = none ∧
      (whileTarget cfg oracle n i ts).targets.length = ts.length ∧
      ∀ j : Nat, (whileTarget cfg oracle n i ts).targets[j]? =
        if i ≤ j then (ts[j]?).map (fun t => (probe cfg (oracle j) t).target) else ts[j]? := by
  intro n
  induction n with
  | zero =>
    intro i ts hlen
    refine ⟨rfl, rfl, fun j => ?_⟩
    simp only [whileTarget]
    split_ifs with hij
    · have : ts.length ≤ j := by omega
      simp [List.getElem?_eq_none this]
    · rfl
  | succ n ih =>
    intro i ts hlen
    have hi : i < ts.length := by omega
    have hget : ts[i]? = some ts[i] := List.getElem?_eq_getElem hi
    have hex : (probe cfg (oracle i) ts[i]).exit = none := probe_exit_none cfg hmode _ _
    obtain ⟨h1, h2, h3⟩ := ih (i + 1) (ts.set i (probe cfg (oracle i) ts[i]).target)
      (by simp; omega)
    simp only [whileTarget, loopBody_of_get cfg _ ts i _ hget, hex]
    refine ⟨h1, by simpa using h2, fun j => ?_⟩
    rw [h3 j]
    rcases Nat.lt_trichotomy j i with hlt | heq | hgt
    · have h4 : ¬ (i + 1 ≤ j) := by omega
      have h5 : ¬ (i ≤ j) := by omega
      simp [h4, h5, List.getElem?_set_ne (show i ≠ j by omega)]
    · subst heq
      simp [hi]
    · have h4 : i + 1 ≤ j := by omega
      have h5 : i ≤ j := by omega
      simp [h4, h5, List.getElem?_set_ne (show i ≠ j by omega)]

theorem probeRound_targets (cfg : Config) (hmode : cfg.oneShot = false) (oracle : Nat → Outcome)
    (ts : List Target) :
    (probeRound cfg oracle ts).exit = none ∧
    (probeRound cfg oracle ts).targets.length = ts.length ∧
    ∀ j : Nat, (probeRound cfg oracle ts).targets[j]? =
      (ts[j]?).map (fun t => (probe cfg (oracle j) t).target) := by
  obtain ⟨h1, h2, h3⟩ := whileTarget_targets cfg hmode oracle ts.length 0 ts (by simp)
  exact ⟨h1, h2, fun j => by simpa [probeRound] using h3 j⟩

theorem mainLoop_targets (cfg : Config) (hmode : cfg.oneShot = false) (quitting : Nat → Bool)
    (oracle : Nat → Nat → Outcome) :
    ∀ (fuel r : Nat) (ts : List Target) (out : List Event) (f : Final),
      mainLoop cfg quitting oracle fuel r ts out = some f →
      r ≤ f.rounds ∧
      ∀ j : Nat, f.targets[j]? =
        (ts[j]?).map (probes cfg (outcomesOf oracle j r (f.rounds - r))) := by
  intro fuel
  induction fuel with
  | zero => intro r ts out f h; simp [mainLoop] at h
  | succ fuel ih =>
    intro r ts out f h
    obtain ⟨hex, -, hget⟩ := probeRound_targets cfg hmode (oracle r) ts
    simp only [mainLoop, hex] at h
    split_ifs at h with hq hdone
    · cases h
      refine ⟨le_refl _, fun j => ?_⟩
      cases hj : ts[j]? <;> simp [outcomesOf, probes]
    · cases h
      refine ⟨Nat.le_succ _, fun j => ?_⟩
      simp only [hget j]
      cases hj : ts[j]? <;> simp [outcomesOf, probes]
    · obtain ⟨hle, hall⟩ := ih _ _ _ _ h
      refine ⟨by omega, fun j => ?_⟩
      have hsplit : f.rounds - r = (f.rounds - (r + 1)) + 1 := by omega
      rw [hall j, hget j, hsplit]
      cases hj : ts[j]? <;> simp [outcomesOf, probes, List.range'_succ]

/-- In count or loop mode, when the run of `main` ends, the target at position `j` is
the freshly created target after the loop body has been applied to it once per
completed round, with the outcomes of its own calls. -/
theorem runMain_targets (cfg : Config) (hmode : cfg.oneShot = false) (quitting : Nat → Bool)
    (oracle : Nat → Nat → Outcome) (fuel : Nat) (names : List String) (f : Final)
    (h : runMain cfg quitting oracle fuel names = some f) (j : Nat) :
    f.targets[j]? =
      (names[j]?).map fun name =>
        probes cfg (outcomesOf oracle j 0 f.rounds) (newTarget cfg name) := by
  obtain ⟨-, hall⟩ := mainLoop_targets cfg hmode quitting oracle fuel 0 _ [] f h
  rw [hall j]
  cases hj : names[j]? <;> simp [hj]

theorem probeRound_sent (cfg : Config) (hmode : cfg.oneShot = false) (oracle : Nat → Outcome)
    (ts : List Target) (r : Nat) (h : ∀ t ∈ ts, t.sent = r) :
    ∀ t ∈ (probeRound cfg oracle ts).targets, t.sent = (r + 1) % 4294967296 := by
  obtain ⟨-, -, h3⟩ := probeRound_targets cfg hmode oracle ts
  intro t ht
  obtain ⟨j, hj, hjt⟩ := List.getElem_of_mem ht
  have h4 : (probeRound cfg oracle ts).targets[j]? = some t := by
    rw [List.getElem?_eq_getElem hj, hjt]
  rw [h3 j] at h4
  obtain ⟨t0, ht0, rfl⟩ := Option.map_eq_some'.mp h4
  rw [probe_sent, h t0 (List.getElem?_mem ht0)]

theorem probeRound_sent_lt (cfg : Config) (hmode : cfg.oneShot = false)
    (oracle : Nat → Outcome) (ts : List Target) :
    ∀ t ∈ (probeRound cfg oracle ts).targets, t.sent < 4294967296 := by
  obtain ⟨-, -, h3⟩ := probeRound_targets cfg hmode oracle ts
  intro t ht
  obtain ⟨j, hj, hjt⟩ := List.getElem_of_mem ht
  have h4 : (probeRound cfg oracle ts).targets[j]? = some t := by
    rw [List.getElem?_eq_getElem hj, hjt]
  rw [h3 j] at h4
  obtain ⟨t0, -, rfl⟩ := Option.map_eq_some'.mp h4
  rw [probe_sent]
  omega

theorem firstSent_of_all (ts : List Target) (r : Nat) (hne : ts ≠ [])
    (h : ∀ t ∈ ts, t.sent = r) : firstSent ts = r := by
  cases ts with
  | nil => exact absurd rfl hne
  | cons t rest => exact h t (List.mem_cons_self _ _)

theorem firstSent_lt (ts : List Target) (h : ∀ t ∈ ts, t.sent < 4294967296) :
    firstSent ts < 4294967296 := by
  cases ts with
  | nil => simp [firstSent]
  | cons t rest => exact h t (List.mem_cons_self _ _)

theorem mainLoop_count (cfg : Config) (hN : cfg.count ≠ 0) (hmax : cfg.count < 4294967296)
    (oracle : Nat → Nat → Outcome) :
    ∀ (fuel r : Nat) (ts : List Target) (out : List Event), ts ≠ [] →
      (∀ t ∈ ts, t.sent = r) → r < cfg.count → cfg.count - r ≤ fuel →
      ∃ f, mainLoop cfg (fun _ => false) oracle fuel r ts out = some f ∧
        f.rounds = cfg.count ∧ f.status = EXIT_SUCCESS ∧
        f.targets.length = ts.length ∧ ∀ t ∈ f.targets, t.sent = cfg.count := by
  have hmode : cfg.oneShot = false := (oneShot_eq_false_iff cfg).mpr (Or.inl hN)
  intro fuel
  induction fuel with
  | zero => intro r ts out _ _ hr hf; omega
  | succ fuel ih =>
    intro r ts out hne hall hr hf
    obtain ⟨hex, hlen, -⟩ := probeRound_targets cfg hmode (oracle r) ts
    have hall' : ∀ t ∈ (probeRound cfg (oracle r) ts).targets, t.sent = r + 1 := by
      intro t ht
      rw [probeRound_sent cfg hmode (oracle r) ts r hall t ht]
      omega
    have hne' : (probeRound cfg (oracle r) ts).targets ≠ [] := by
      intro h0
      rw [h0] at hlen
      exact hne (List.length_eq_zero.mp hlen.symm)
    have hfirst := firstSent_of_all _ _ hne' hall'
    simp only [mainLoop, Bool.false_eq_true, if_false, hex, hfirst]
    by_cases hdone : cfg.count ≠ 0 ∧ r + 1 ≥ cfg.count
    · rw [if_pos hdone]
      refine ⟨_, rfl, ?_, rfl, hlen, ?_⟩
      · show r + 1 = cfg.count
        omega
      · intro t ht
        rw [hall' t ht]; omega
    · rw [if_neg hdone]
      have hlt : r + 1 < cfg.count := by
        rcases Nat.lt_or_ge (r + 1) cfg.count with h | h
        · exact h
        · exact absurd ⟨hN, h⟩ hdone
      obtain ⟨f, hf1, hf2, hf3, hf4, hf5⟩ :=
        ih (r + 1) _ (out ++ (probeRound cfg (oracle r) ts).out) hne' hall' hlt (by omega)
      exact ⟨f, hf1, hf2, hf3, by rw [hf4, hlen], hf5⟩

/-- With a count of 4294967296 or more the test of line 380 never holds, because `sent`
stays below 4294967296: without an interrupt no bound on the iterations is enough. -/
theorem mainLoop_never_ends (cfg : Config) (hmode : cfg.oneShot = false)
    (hc : 4294967296 ≤ cfg.count) (oracle : Nat → Nat → Outcome) :
    ∀ (fuel r : Nat) (ts : List Target) (out : List Event),
      mainLoop cfg (fun _ => false) oracle fuel r ts out = none := by
  intro fuel
  induction fuel with
  | zero => intro r ts out; rfl
  | succ fuel ih =>
    intro r ts out
    obtain ⟨hex, -, -⟩ := probeRound_targets cfg hmode (oracle r) ts
    have hlt := firstSent_lt _ (probeRound_sent_lt cfg hmode (oracle r) ts)
    simp only [mainLoop, Bool.false_eq_true, if_false, hex]
    rw [if_neg (by omega)]
    exact ih _ _ _

/-- C7 fails for a count that `sent` cannot reach: with `-q -c 4294967296` and one target
whose calls all time out, `sent` is 0 after 4294967296 probes, not 4294967296, and the
run has not ended even when twice as many iterations are allowed. -/
theorem count_beyond_sent_never_ends :
    (probes ⟨4294967296, false, false, true⟩ (List.replicate 4294967296 .failure)
        (newTarget ⟨4294967296, false, false, true⟩ "host")).sent = 0 ∧
    runMain ⟨4294967296, false, false, true⟩ (fun _ => false) (fun _ _ => .failure)
        8589934592 ["host"] = none := by
  constructor
  · rw [probes_sent_failures _ _ _ (by simp [newTarget])]
    rfl
  · exact mainLoop_never_ends ⟨4294967296, false, false, true⟩ rfl (by decide) _ _ _ _ _

/-- C7 as amended: with a count `N`, `1 ≤ N < 4294967296`, at least one target and the
interrupt flag never set, the run ends, whatever the outcomes of the calls, as soon as
the bound on the iterations is at least `N`; it ends after exactly `N` rounds by the
regular exit with status `EXIT_SUCCESS`, and then every target, the first one included,
has `sent = N`. -/
theorem count_mode_rounds (cfg : Config) (oracle : Nat → Nat → Outcome) (names : List String)
    (fuel : Nat) (hN : cfg.count ≠ 0) (hmax : cfg.count < 4294967296) (hne : names ≠ [])
    (hfuel : cfg.count ≤ fuel) :
    ∃ f, runMain cfg (fun _ => false) oracle fuel names = some f ∧
      f.rounds = cfg.count ∧ f.status = EXIT_SUCCESS ∧
      f.targets.length = names.length ∧ firstSent f.targets = cfg.count ∧
      ∀ t ∈ f.targets, t.sent = cfg.count := by
  have hne' : names.map (newTarget cfg) ≠ [] := by simpa using hne
  obtain ⟨f, h1, h2, h3, h4, h5⟩ := mainLoop_count cfg hN hmax oracle fuel 0
    (names.map (newTarget cfg)) [] hne'
    (by intro t ht; obtain ⟨n, -, rfl⟩ := List.mem_map.mp ht; rfl)
    (Nat.pos_of_ne_zero hN) (by omega)
  have hfne : f.targets ≠ [] := by
    intro h0
    rw [h0] at h4
    exact hne' (List.length_eq_zero.mp h4.symm)
  exact ⟨f, h1, h2, h3, by simpa using h4, firstSent_of_all _ _ hfne h5, h5⟩

/-- Witness for C7 as amended: three rounds over two targets, the calls of the second
round failing. -/
theorem count_mode_rounds_witness :
    ∃ f, runMain ⟨3, false, false, true⟩ (fun _ => false)
        (fun r j => if r = 1 then .failure else .success (200 + j)) 3 ["a", "b"] = some f ∧
      f.rounds = 3 ∧ f.status = EXIT_SUCCESS ∧ f.targets.length = 2 ∧
      firstSent f.targets = 3 ∧ ∀ t ∈ f.targets, t.sent = 3 :=
  count_mode_rounds ⟨3, false, false, true⟩
    (fun r j => if r = 1 then .failure else .success (200 + j)) ["a", "b"] 3
    (by decide) (by decide) (by decide) (by decide)

/-- C8: in one-shot mode (no count, no loop), with at least one target and the
interrupt flag not set when the loop is entered, the run ends in the first execution of
the loop body.  If the call succeeded the whole output is the one line that the first
target is alive and the status is `EXIT_SUCCESS`; otherwise the output is the
`clnt_perror` diagnostic followed by the one line that the first target is dead, and the
status is `EXIT_FAILURE`.  Either way no round is completed, no summary is printed, the
first target has only its `sent` raised to one, and the other targets are untouched. -/
theorem one_shot_run (cfg : Config) (quitting : Nat → Bool) (oracle : Nat → Nat → Outcome)
    (fuel : Nat) (name : String) (names : List String)
    (hc : cfg.count = 0) (hl : cfg.loop = false) (hq : quitting 0 = false) :
    runMain cfg quitting oracle (fuel + 1) (name :: names) =
      some { targets := { newTarget cfg name with sent := 1 } :: names.map (newTarget cfg),
             out := (match oracle 0 0 with
                     | .success _ => [Event.alive name]
                     | .failure => [Event.perror, Event.dead name]),
             status := (match oracle 0 0 with
                        | .success _ => EXIT_SUCCESS
                        | .failure => EXIT_FAILURE),
             rounds := 0 } := by
  have hm : cfg.oneShot = true := by simp [Config.oneShot, hc, hl]
  cases ho : oracle 0 0 <;>
    simp [runMain, mainLoop, hq, probeRound, whileTarget, loopBody, probe, hm, ho, newTarget]

/-- Witness for C8: two targets, the first call times out. -/
theorem one_shot_run_witness :
    runMain ⟨0, false, false, false⟩ (fun _ => false) (fun _ _ => .failure) 1 ["a", "b"] =
      some { targets := [{ newTarget ⟨0, false, false, false⟩ "a" with sent := 1 },
                         newTarget ⟨0, false, false, false⟩ "b"],
             out := [Event.perror, Event.dead "a"],
             status := EXIT_FAILURE,
             rounds := 0 } :=
  one_shot_run ⟨0, false, false, false⟩ (fun _ => false) (fun _ _ => .failure) 0 "a" ["b"]
    rfl rfl rfl

/-! ## The option `-2` -/

/-- C9, the behaviour of the code: for the option character `2`, which `getopt` returns
for `-2`, no case label of the switch matches (the label is the integer 2), so the
default branch calls `usage()` and the program exits with status 3 without setting the
version. -/
theorem option_two_is_usage_error (optarg : Nat) (o : Options) (nfsTimeout : Timeval)
    (nfsSleep nfsWait : Timespec) (nfsPort : Nat) :
    optionSwitch '2'.toNat optarg o = .error 3 ∧
    parseOptions [('2'.toNat, optarg)] (initialOptions nfsTimeout nfsSleep nfsWait nfsPort) =
      .error 3 := by
  constructor <;> simp [parseOptions, optionSwitch, usage]

/-! ## The per-sample status line -/

/-- C10 fails for a failed call: in count mode and not quiet, the loop body run for a
failed call writes the `clnt_perror` diagnostic and nothing to standard output. -/
theorem no_status_line_on_failure :
    (probe ⟨5, false, false, false⟩ .failure (newTarget ⟨5, false, false, false⟩ "host")).out =
      [Event.perror] ∧
    ((probe ⟨5, false, false, false⟩ .failure
        (newTarget ⟨5, false, false, false⟩ "host")).out.filter Event.isStdout).length ≠ 1 := by
  simp [probe, Config.oneShot, recordFailure, newTarget, Event.isStdout]

/-- C10 as amended: in count or loop mode and not quiet, the probe of a target that
follows `k` earlier probes of it writes, if its call succeeded, exactly one line to
standard output, the status line with the sequence index `k` modulo 4294967296 (the
`unsigned int` value `sent - 1`), the latency and the new average in milliseconds and
the loss; if its call failed it writes nothing to standard output. -/
theorem status_line_per_success (cfg : Config) (name : String) (os : List Outcome)
    (o : Outcome) (hmode : cfg.count ≠ 0 ∨ cfg.loop = true) (hq : cfg.quiet = false) :
    (probe cfg o (probes cfg os (newTarget cfg name))).out.filter Event.isStdout =
      match o with
      | .success us =>
        [Event.status name (os.length % 4294967296) (msOf us)
          (avgMsOf (probe cfg o (probes cfg os (newTarget cfg name))).target)
          (lossOf (probe cfg o (probes cfg os (newTarget cfg name))).target)]
      | .failure => [] := by
  have hm := (oneShot_eq_false_iff cfg).mpr hmode
  have hname := probes_name cfg os (newTarget cfg name)
  have hsent := probes_sent_newTarget cfg name os
  cases o with
  | failure => simp [probe, hm, Event.isStdout]
  | success us =>
    have hseq : ((os.length % 4294967296 + 1) % 4294967296 + 4294967295) % 4294967296 =
        os.length % 4294967296 := by omega
    simp only [probe, hm, hq, Bool.false_eq_true, if_false, recordSuccess_name,
      recordSuccess_sent, hname, hsent, List.filter, Event.isStdout, hseq]
    simp [newTarget, lossOf, recordSuccess_sent, recordSuccess_received, hsent]

/-- Witness for C10 as amended: after a success and a failure, a successful third probe
writes the status line with index 2. -/
theorem status_line_per_success_witness :
    ((probe ⟨5, false, false, false⟩ (.success 400)
        (probes ⟨5, false, false, false⟩ [.success 300, .failure]
          (newTarget ⟨5, false, false, false⟩ "host"))).out.filter Event.isStdout).length = 1 := by
  rw [status_line_per_success ⟨5, false, false, false⟩ "host" [.success 300, .failure]
    (.success 400) (Or.inl (by decide)) rfl]
  rfl

end NFSping
